import Mathlib

/-!
Verification model of the strong_ptr / decay_ptr ownership-transition
primitive (src/strong_ptr.h).

The C++ code is built from std::shared_ptr control blocks.  We embed the
relevant heap state explicitly:

- a data control block (DataCB) is the control block of the shared_ptr
  chain rooted at a strong_ptr m_data member: its count is the number of
  outstanding storage claims on the pointee allocation, and destroyCount
  records how many times the pointee user deleter has run;
- a token control block (TokenCB) is the control block created for
  m_shared via shared_ptr(nullptr, shared_deleter\x7bm_data, m_wake\x7d):
  its count is the number of claims (the strong_ptr m_shared member plus
  every aliasing observer obtained from get_shared), finalized records
  whether the captured shared_deleter has run, dataId is the data block
  whose claim the deleter captured (a copy of m_data), and wakeId the
  captured wake channel;
- a wake control block (WakeCB) is a wake_type instance; broadcasts
  counts the notify_all calls performed on its condition variable.

Heaps are total maps from Nat identifiers to control blocks, together
with allocation counters; allocation hands out the next fresh id.
-/

structure DataCB where
  count : Nat
  destroyCount : Nat
deriving DecidableEq

structure TokenCB where
  count : Nat
  finalized : Bool
  dataId : Option Nat
  wakeId : Nat
deriving DecidableEq

structure WakeCB where
  broadcasts : Nat
deriving DecidableEq

structure Heap where
  dataCt : Nat
  datas : Nat → DataCB
  tokenCt : Nat
  tokens : Nat → TokenCB
  wakeCt : Nat
  wakes : Nat → WakeCB

/-- A token slot that was never allocated: no claims, vacuously finalized. -/
def TokenCB.vacant : TokenCB := ⟨0, true, none, 0⟩

def Heap.empty : Heap :=
  ⟨0, fun _ => ⟨0, 0⟩, 0, fun _ => TokenCB.vacant, 0, fun _ => ⟨0⟩⟩

def Heap.setData (h : Heap) (i : Nat) (cb : DataCB) : Heap :=
  { h with datas := fun j => if j = i then cb else h.datas j }

def Heap.setToken (h : Heap) (i : Nat) (cb : TokenCB) : Heap :=
  { h with tokens := fun j => if j = i then cb else h.tokens j }

def Heap.setWake (h : Heap) (i : Nat) (cb : WakeCB) : Heap :=
  { h with wakes := fun j => if j = i then cb else h.wakes j }

/-- Dropping one storage claim; when the last claim goes, the pointee
user deleter runs (destroyCount is incremented exactly then). -/
def Heap.dataRelease (h : Heap) (i : Nat) : Heap :=
  let cb := h.datas i
  if cb.count = 1 then h.setData i ⟨0, cb.destroyCount + 1⟩
  else h.setData i { cb with count := cb.count - 1 }

/-- Copying a storage claim (shared_ptr copy), as done by the
shared_deleter capture of m_data. -/
def Heap.dataIncr (h : Heap) (i : Nat) : Heap :=
  h.setData i { h.datas i with count := (h.datas i).count + 1 }

/-- notify_all on the wake channel condition variable. -/
def Heap.wakeBroadcast (h : Heap) (w : Nat) : Heap :=
  h.setWake w ⟨(h.wakes w).broadcasts + 1⟩

/-- Copying a token claim (copying a shared_ptr that shares the m_shared
control block, as the aliasing observers do). -/
def Heap.tokenIncr (h : Heap) (t : Nat) : Heap :=
  h.setToken t { h.tokens t with count := (h.tokens t).count + 1 }

/-- Dropping one token claim.  When the last claim goes the
shared_deleter runs: it resets its captured m_data copy (releasing the
secondary storage claim), takes the wake mutex, and calls notify_all. -/
def Heap.tokenRelease (h : Heap) (t : Nat) : Heap :=
  let cb := h.tokens t
  if cb.count = 1 then
    let h1 := h.setToken t { cb with count := 0, finalized := true }
    let h2 := match cb.dataId with
      | none => h1
      | some d => h1.dataRelease d
    h2.wakeBroadcast cb.wakeId
  else
    h.setToken t { cb with count := cb.count - 1 }

/-- Allocating the control block of a shared_ptr adopting a raw pointer:
one claim, deleter not yet run. -/
def Heap.allocData (h : Heap) : Heap × Nat :=
  ({ h with dataCt := h.dataCt + 1,
            datas := fun j => if j = h.dataCt then ⟨1, 0⟩ else h.datas j },
   h.dataCt)

/-- make_shared of a fresh wake_type. -/
def Heap.allocWake (h : Heap) : Heap × Nat :=
  ({ h with wakeCt := h.wakeCt + 1,
            wakes := fun j => if j = h.wakeCt then ⟨0⟩ else h.wakes j },
   h.wakeCt)

/-- Constructing shared_ptr(nullptr, shared_deleter\x7bm_data, m_wake\x7d):
the deleter copies m_data (one extra storage claim when non-null) and the
new control block starts with a single claim. -/
def Heap.allocToken (h : Heap) (dOpt : Option Nat) (w : Nat) : Heap × Nat :=
  let h1 := match dOpt with
    | none => h
    | some d => h.dataIncr d
  ({ h1 with tokenCt := h1.tokenCt + 1,
             tokens := fun j => if j = h1.tokenCt then ⟨1, false, dOpt, w⟩ else h1.tokens j },
   h1.tokenCt)

def Heap.wakeBroadcasts (h : Heap) (w : Nat) : Nat := (h.wakes w).broadcasts

/-- The members of strong_ptr: m_data and m_shared are shared_ptr values
(none encodes a null shared_ptr), m_wake points at the wake channel. -/
structure StrongPtr where
  mData : Option Nat
  mWake : Option Nat
  mShared : Option Nat
deriving DecidableEq

/-- The members of decay_ptr: m_decaying is a weak_ptr to the token
control block (none encodes an empty weak_ptr). -/
structure DecayPtr where
  mData : Option Nat
  mDecaying : Option Nat
  mWake : Option Nat
deriving DecidableEq

/-- An aliasing observer produced by get_shared: it shares the token
control block of m_shared and stores the raw pointee pointer. -/
structure Observer where
  token : Option Nat
  ptr : Option Nat
deriving DecidableEq

/-- strong_ptr(U* ptr) and the unique_ptr / make_strong constructors:
m_data adopts the allocation, m_wake is fresh, and the m_shared member
initializer builds the token capturing a copy of m_data. -/
def mkStrong (h : Heap) : Heap × StrongPtr :=
  let r1 := h.allocData
  let r2 := r1.1.allocWake
  let r3 := r2.1.allocToken (some r1.2) r2.2
  (r3.1, ⟨some r1.2, some r2.2, some r3.2⟩)

/-- strong_ptr() and strong_ptr(nullptr): null m_data, fresh m_wake, and
a token whose deleter captured the null m_data (no storage claim). -/
def mkStrongNull (h : Heap) : Heap × StrongPtr :=
  let r1 := h.allocWake
  let r2 := r1.1.allocToken none r1.2
  (r2.1, ⟨none, some r1.2, some r2.2⟩)

/-- operator bool of strong_ptr: m_data.operator bool(). -/
def StrongPtr.toBool (sp : StrongPtr) : Bool := sp.mData.isSome

/-- get_shared: shared_ptr(T)(m_shared, m_data.get()), the aliasing
constructor.  It copies the m_shared claim (when non-null) and stores
the raw pointee pointer. -/
def StrongPtr.get_shared (sp : StrongPtr) (h : Heap) : Heap × Observer :=
  match sp.mShared with
  | none => (h, ⟨none, sp.mData⟩)
  | some t => (h.tokenIncr t, ⟨some t, sp.mData⟩)

/-- strong_ptr::reset(): m_data.reset(); m_shared.reset(); then a fresh
m_wake.  Note m_shared becomes a null shared_ptr: no new token. -/
def StrongPtr.reset (sp : StrongPtr) (h : Heap) : Heap × StrongPtr :=
  let h1 := match sp.mData with
    | none => h
    | some d => h.dataRelease d
  let h2 := match sp.mShared with
    | none => h1
    | some t => h1.tokenRelease t
  let r := h2.allocWake
  (r.1, ⟨none, some r.2, none⟩)

/-- strong_ptr::reset(U* ptr) and reset(U* ptr, Deleter):
m_data.reset(ptr) adopts the new allocation and drops the old claim;
m_wake is made fresh; m_shared.reset(nullptr, shared_deleter\x7b...\x7d)
builds the new token (capturing the new m_data) and then drops the old
token claim. -/
def StrongPtr.resetPtr (sp : StrongPtr) (h : Heap) : Heap × StrongPtr :=
  let r1 := h.allocData
  let h2 := match sp.mData with
    | none => r1.1
    | some d => r1.1.dataRelease d
  let r3 := h2.allocWake
  let r4 := r3.1.allocToken (some r1.2) r3.2
  let h5 := match sp.mShared with
    | none => r4.1
    | some t => r4.1.tokenRelease t
  (h5, ⟨some r1.2, some r3.2, some r4.2⟩)

/-- The strong_ptr destructor: members die in reverse declaration order,
m_shared (the token claim) first, then m_wake, then m_data. -/
def StrongPtr.drop (sp : StrongPtr) (h : Heap) : Heap :=
  let h1 := match sp.mShared with
    | none => h
    | some t => h.tokenRelease t
  match sp.mData with
  | none => h1
  | some d => h1.dataRelease d

/-- decay_ptr(strong_ptr(U)&& ptr): m_data and m_wake are moved over,
m_decaying observes the token weakly (no claim copied), and then
ptr.m_shared.reset() drops the strong handle token claim.  Returns the
new decay_ptr and the moved-from strong_ptr. -/
def toDecay (h : Heap) (sp : StrongPtr) : Heap × DecayPtr × StrongPtr :=
  let dp : DecayPtr := ⟨sp.mData, sp.mShared, sp.mWake⟩
  let h1 := match sp.mShared with
    | none => h
    | some t => h.tokenRelease t
  (h1, dp, ⟨none, none, none⟩)

def DecayPtr.empty : DecayPtr := ⟨none, none, none⟩

/-- decayed(): m_decaying.expired(), i.e. the token use count is zero
(an empty weak_ptr reads as expired). -/
def DecayPtr.decayed (dp : DecayPtr) (h : Heap) : Bool :=
  match dp.mDecaying with
  | none => true
  | some t => (h.tokens t).count == 0

/-- decay_ptr::reset(): m_decaying.reset(); m_data.reset() drops the
direct storage claim; m_wake.reset(). -/
def DecayPtr.reset (dp : DecayPtr) (h : Heap) : Heap × DecayPtr :=
  let h1 := match dp.mData with
    | none => h
    | some d => h.dataRelease d
  (h1, DecayPtr.empty)

/-- The decay_ptr destructor: releases the direct storage claim. -/
def DecayPtr.drop (dp : DecayPtr) (h : Heap) : Heap :=
  match dp.mData with
  | none => h
  | some d => h.dataRelease d

/-- The decay_ptr move constructor: the target takes all members, the
source is left with null shared_ptrs and an empty weak_ptr. -/
def DecayPtr.moveOut (dp : DecayPtr) : DecayPtr × DecayPtr :=
  (⟨dp.mData, dp.mDecaying, dp.mWake⟩, DecayPtr.empty)

/-- Copying an observer: one more claim on its token control block. -/
def Observer.copy (o : Observer) (h : Heap) : Heap × Observer :=
  match o.token with
  | none => (h, ⟨none, o.ptr⟩)
  | some t => (h.tokenIncr t, ⟨some t, o.ptr⟩)

/-- Destroying or resetting an observer: drops its token claim. -/
def Observer.drop (o : Observer) (h : Heap) : Heap :=
  match o.token with
  | none => h
  | some t => h.tokenRelease t

/-!
Post-conversion system: one draining handle plus an arbitrary collection
of observers, driven by the operations that remain available after an
ExclusiveHandle has been converted (observers may be copied and dropped
from any thread; the draining handle may be reset or destroyed).
Dropped observer slots are kept as released handles (both members null),
mirroring a shared_ptr after reset.
-/

structure Config where
  heap : Heap
  dp : Option DecayPtr
  obs : List Observer

inductive DOp where
  | copyObs : Nat → DOp
  | dropObs : Nat → DOp
  | resetDp : DOp
  | dropDp : DOp
deriving DecidableEq

def Config.step (c : Config) : DOp → Config
  | DOp.copyObs i =>
    match c.obs[i]? with
    | none => c
    | some o =>
      let r := o.copy c.heap
      ⟨r.1, c.dp, c.obs ++ [r.2]⟩
  | DOp.dropObs i =>
    match c.obs[i]? with
    | none => c
    | some o => ⟨o.drop c.heap, c.dp, c.obs.set i ⟨none, none⟩⟩
  | DOp.resetDp =>
    match c.dp with
    | none => c
    | some dp =>
      let r := dp.reset c.heap
      ⟨r.1, some r.2, c.obs⟩
  | DOp.dropDp =>
    match c.dp with
    | none => c
    | some dp => ⟨dp.drop c.heap, none, c.obs⟩

def Config.run (c : Config) : List DOp → Config
  | [] => c
  | op :: tr => (c.step op).run tr

/-- Number of live observers holding a claim on token t. -/
def tokCount : List Observer → Nat → Nat
  | [], _ => 0
  | o :: rest, t => (if o.token = some t then 1 else 0) + tokCount rest t

/-- Token control blocks are consistent: the finalize callback has run
exactly when the claim count is zero (allocation starts at one and the
shared_deleter runs at the unique drop to zero). -/
def HeapTokensOk (h : Heap) : Prop :=
  ∀ t, (h.tokens t).finalized = true ↔ (h.tokens t).count = 0

/-- Configuration well-formedness: the live observers referencing a
token never outnumber its recorded claims, and tokens are consistent. -/
def ConfigOk (c : Config) : Prop :=
  (∀ t, tokCount c.obs t ≤ (c.heap.tokens t).count) ∧ HeapTokensOk c.heap

/-- Broadcasts delivered on channel w by the operations of tr, run from
configuration c: what a thread parked in the plain wait() during these
operations could be woken by. -/
def Config.broadcastsAfter (c : Config) (w : Nat) (tr : List DOp) : Nat :=
  (c.run tr).heap.wakeBroadcasts w - c.heap.wakeBroadcasts w

/-- Outcome of the untimed, no-predicate wait(): assert(m_wake) first;
then the thread parks on the condition variable and is woken only by a
broadcast delivered after parking. -/
inductive WaitOutcome where
  | assertFail : WaitOutcome
  | blocked : WaitOutcome
  | woken : WaitOutcome
deriving DecidableEq

def DecayPtr.waitOutcome (dp : DecayPtr) (laterBroadcasts : Nat) : WaitOutcome :=
  match dp.mWake with
  | none => WaitOutcome.assertFail
  | some _ => if laterBroadcasts = 0 then WaitOutcome.blocked else WaitOutcome.woken

/-- std::cv_status. -/
inductive CvStatus where
  | cvTimeout : CvStatus
  | cvNoTimeout : CvStatus
deriving DecidableEq

/-- wait_for(rel_time): assert(m_wake), then the condition variable wait
reports whether the deadline elapsed or a notification arrived first.
The environment parameter says whether a broadcast is delivered before
the deadline. -/
def DecayPtr.wait_for (dp : DecayPtr) (notifiedBeforeDeadline : Bool) : Option CvStatus :=
  match dp.mWake with
  | none => none
  | some _ =>
    some (if notifiedBeforeDeadline then CvStatus.cvNoTimeout else CvStatus.cvTimeout)

/-- wait_until(timeout_time): same structure as wait_for. -/
def DecayPtr.wait_until (dp : DecayPtr) (notifiedBeforeDeadline : Bool) : Option CvStatus :=
  match dp.mWake with
  | none => none
  | some _ =>
    some (if notifiedBeforeDeadline then CvStatus.cvNoTimeout else CvStatus.cvTimeout)

/-- wait_for(rel_time, stop_waiting): returns the predicate value at
return time, false exactly when the deadline elapsed with the predicate
still false. -/
def DecayPtr.wait_for_pred (dp : DecayPtr) (predHoldsBeforeDeadline : Bool) : Option Bool :=
  match dp.mWake with
  | none => none
  | some _ => some predHoldsBeforeDeadline

/-- wait_until(timeout_time, stop_waiting): as wait_for_pred. -/
def DecayPtr.wait_until_pred (dp : DecayPtr) (predHoldsBeforeDeadline : Bool) : Option Bool :=
  match dp.mWake with
  | none => none
  | some _ => some predHoldsBeforeDeadline

/-- wait(stop_waiting): returns once the predicate holds. -/
def DecayPtr.wait_pred (dp : DecayPtr) : Option Unit :=
  match dp.mWake with
  | none => none
  | some _ => some ()

/-! Component lemmas for the heap operations. -/

theorem Heap.setData_datas (h : Heap) (i : Nat) (cb : DataCB) :
    (h.setData i cb).datas = fun j => if j = i then cb else h.datas j := rfl

theorem Heap.setData_tokens (h : Heap) (i : Nat) (cb : DataCB) :
    (h.setData i cb).tokens = h.tokens := rfl

theorem Heap.setData_wakes (h : Heap) (i : Nat) (cb : DataCB) :
    (h.setData i cb).wakes = h.wakes := rfl

theorem Heap.setToken_tokens (h : Heap) (i : Nat) (cb : TokenCB) :
    (h.setToken i cb).tokens = fun j => if j = i then cb else h.tokens j := rfl

theorem Heap.setToken_datas (h : Heap) (i : Nat) (cb : TokenCB) :
    (h.setToken i cb).datas = h.datas := rfl

theorem Heap.setToken_wakes (h : Heap) (i : Nat) (cb : TokenCB) :
    (h.setToken i cb).wakes = h.wakes := rfl

theorem Heap.setWake_tokens (h : Heap) (i : Nat) (cb : WakeCB) :
    (h.setWake i cb).tokens = h.tokens := rfl

theorem Heap.setWake_datas (h : Heap) (i : Nat) (cb : WakeCB) :
    (h.setWake i cb).datas = h.datas := rfl

theorem Heap.dataRelease_tokens (h : Heap) (d : Nat) :
    (h.dataRelease d).tokens = h.tokens := by
  by_cases hc : (h.datas d).count = 1 <;> simp [Heap.dataRelease, hc, Heap.setData]

theorem Heap.dataRelease_wakes (h : Heap) (d : Nat) :
    (h.dataRelease d).wakes = h.wakes := by
  by_cases hc : (h.datas d).count = 1 <;> simp [Heap.dataRelease, hc, Heap.setData]

theorem Heap.dataIncr_tokens (h : Heap) (d : Nat) :
    (h.dataIncr d).tokens = h.tokens := rfl

theorem Heap.wakeBroadcast_tokens (h : Heap) (w : Nat) :
    (h.wakeBroadcast w).tokens = h.tokens := rfl

theorem Heap.wakeBroadcast_datas (h : Heap) (w : Nat) :
    (h.wakeBroadcast w).datas = h.datas := rfl

theorem Heap.tokenIncr_tokens_self (h : Heap) (t : Nat) :
    ((h.tokenIncr t).tokens t).count = (h.tokens t).count + 1 ∧
    ((h.tokenIncr t).tokens t).finalized = (h.tokens t).finalized ∧
    ((h.tokenIncr t).tokens t).dataId = (h.tokens t).dataId := by
  simp [Heap.tokenIncr, Heap.setToken]

theorem Heap.tokenIncr_tokens_ne (h : Heap) {t v : Nat} (hv : v ≠ t) :
    (h.tokenIncr t).tokens v = h.tokens v := by
  simp [Heap.tokenIncr, Heap.setToken, hv]

theorem Heap.tokenIncr_datas (h : Heap) (t : Nat) :
    (h.tokenIncr t).datas = h.datas := rfl

theorem Heap.tokenIncr_wakes (h : Heap) (t : Nat) :
    (h.tokenIncr t).wakes = h.wakes := rfl

theorem Heap.tokenRelease_tokens_ne (h : Heap) {t v : Nat} (hv : v ≠ t) :
    (h.tokenRelease t).tokens v = h.tokens v := by
  by_cases hc : (h.tokens t).count = 1
  · cases hd : (h.tokens t).dataId <;>
      simp [Heap.tokenRelease, hc, hd, Heap.wakeBroadcast, Heap.setWake,
        Heap.dataRelease_tokens, Heap.setToken, hv]
  · simp [Heap.tokenRelease, hc, Heap.setToken, hv]

theorem Heap.tokenRelease_count_self (h : Heap) (t : Nat) :
    ((h.tokenRelease t).tokens t).count = (h.tokens t).count - 1 := by
  by_cases hc : (h.tokens t).count = 1
  · cases hd : (h.tokens t).dataId <;>
      simp [Heap.tokenRelease, hc, hd, Heap.wakeBroadcast, Heap.setWake,
        Heap.dataRelease_tokens, Heap.setToken]
  · simp [Heap.tokenRelease, hc, Heap.setToken]

theorem Heap.tokenRelease_finalized_one (h : Heap) (t : Nat)
    (hc : (h.tokens t).count = 1) :
    ((h.tokenRelease t).tokens t).finalized = true := by
  cases hd : (h.tokens t).dataId <;>
    simp [Heap.tokenRelease, hc, hd, Heap.wakeBroadcast, Heap.setWake,
      Heap.dataRelease_tokens, Heap.setToken]

theorem Heap.tokenRelease_finalized_ne_one (h : Heap) (t : Nat)
    (hc : ¬ (h.tokens t).count = 1) :
    ((h.tokenRelease t).tokens t).finalized = (h.tokens t).finalized := by
  simp [Heap.tokenRelease, hc, Heap.setToken]

theorem Heap.tokenRelease_dataId (h : Heap) (t v : Nat) :
    ((h.tokenRelease t).tokens v).dataId = (h.tokens v).dataId := by
  by_cases hv : v = t
  · subst hv
    by_cases hc : (h.tokens v).count = 1
    · cases hd : (h.tokens v).dataId <;>
        simp [Heap.tokenRelease, hc, hd, Heap.wakeBroadcast, Heap.setWake,
          Heap.dataRelease_tokens, Heap.setToken]
    · simp [Heap.tokenRelease, hc, Heap.setToken]
  · rw [Heap.tokenRelease_tokens_ne h hv]

theorem Heap.tokenRelease_datas_ne_one (h : Heap) (t : Nat)
    (hc : ¬ (h.tokens t).count = 1) :
    (h.tokenRelease t).datas = h.datas := by
  simp [Heap.tokenRelease, hc, Heap.setToken]

theorem Heap.tokenRelease_datas_one_none (h : Heap) (t : Nat)
    (hc : (h.tokens t).count = 1) (hd : (h.tokens t).dataId = none) :
    (h.tokenRelease t).datas = h.datas := by
  simp [Heap.tokenRelease, hc, hd, Heap.wakeBroadcast, Heap.setWake, Heap.setToken]

theorem Heap.tokenRelease_datas_one_some (h : Heap) (t d : Nat)
    (hc : (h.tokens t).count = 1) (hd : (h.tokens t).dataId = some d) :
    (h.tokenRelease t).datas = (h.dataRelease d).datas := by
  funext j
  by_cases hdc : (h.datas d).count = 1 <;>
    simp [Heap.tokenRelease, hc, hd, hdc, Heap.wakeBroadcast, Heap.setWake,
      Heap.dataRelease, Heap.setToken, Heap.setData]

theorem Heap.tokenRelease_wakes_ne_one (h : Heap) (t : Nat)
    (hc : ¬ (h.tokens t).count = 1) :
    (h.tokenRelease t).wakes = h.wakes := by
  simp [Heap.tokenRelease, hc, Heap.setToken]

theorem Heap.tokenRelease_wakes_one (h : Heap) (t : Nat)
    (hc : (h.tokens t).count = 1) :
    (h.tokenRelease t).wakes =
      fun j => if j = (h.tokens t).wakeId
        then ⟨(h.wakes ((h.tokens t).wakeId)).broadcasts + 1⟩ else h.wakes j := by
  funext j
  cases hd : (h.tokens t).dataId <;>
    simp [Heap.tokenRelease, hc, hd, Heap.wakeBroadcast, Heap.setWake,
      Heap.dataRelease_wakes, Heap.setToken]

/-! Counting lemmas for the observer list. -/

theorem tokCount_append (l : List Observer) (o : Observer) (t : Nat) :
    tokCount (l ++ [o]) t = tokCount l t + (if o.token = some t then 1 else 0) := by
  induction l with
  | nil => simp [tokCount]
  | cons a l ih => simp [tokCount, ih]; omega

theorem tokCount_pos (l : List Observer) (i : Nat) (o : Observer) (t : Nat)
    (hget : l[i]? = some o) (htok : o.token = some t) : 1 ≤ tokCount l t := by
  induction l generalizing i with
  | nil => simp at hget
  | cons a l ih =>
    cases i with
    | zero =>
      simp at hget
      subst hget
      simp [tokCount, htok]
    | succ i =>
      simp at hget
      have h1 := ih i hget
      simp [tokCount]
      omega

theorem tokCount_set_release (l : List Observer) (i : Nat) (o : Observer) (t : Nat)
    (hget : l[i]? = some o) :
    tokCount (l.set i ⟨none, none⟩) t + (if o.token = some t then 1 else 0) =
      tokCount l t := by
  induction l generalizing i with
  | nil => simp at hget
  | cons a l ih =>
    cases i with
    | zero =>
      simp at hget
      subst hget
      simp [tokCount]
      omega
    | succ i =>
      simp at hget
      have h1 := ih i hget
      simp [tokCount, List.set]
      omega

/-! Preservation of well-formedness by the post-conversion operations. -/

theorem decayReset_heap_tokens (dp : DecayPtr) (h : Heap) :
    (dp.reset h).1.tokens = h.tokens := by
  cases hd : dp.mData <;> simp [DecayPtr.reset, hd, Heap.dataRelease_tokens]

theorem decayReset_heap_wakes (dp : DecayPtr) (h : Heap) :
    (dp.reset h).1.wakes = h.wakes := by
  cases hd : dp.mData <;> simp [DecayPtr.reset, hd, Heap.dataRelease_wakes]

theorem decayDrop_heap_tokens (dp : DecayPtr) (h : Heap) :
    (dp.drop h).tokens = h.tokens := by
  cases hd : dp.mData <;> simp [DecayPtr.drop, hd, Heap.dataRelease_tokens]

theorem decayDrop_heap_wakes (dp : DecayPtr) (h : Heap) :
    (dp.drop h).wakes = h.wakes := by
  cases hd : dp.mData <;> simp [DecayPtr.drop, hd, Heap.dataRelease_wakes]

theorem configOk_step (c : Config) (op : DOp) (hok : ConfigOk c) :
    ConfigOk (c.step op) := by
  obtain ⟨hcnt, hfin⟩ := hok
  cases op with
  | copyObs i =>
    cases hget : c.obs[i]? with
    | none => simpa [Config.step, hget] using ⟨hcnt, hfin⟩
    | some o =>
      cases htok : o.token with
      | none =>
        refine ⟨?_, ?_⟩
        · intro t
          have := hcnt t
          simp [Config.step, hget, Observer.copy, htok, tokCount_append]
          omega
        · simpa [Config.step, hget, Observer.copy, htok] using hfin
      | some u =>
        have hupos : 1 ≤ (c.heap.tokens u).count :=
          le_trans (tokCount_pos c.obs i o u hget htok) (hcnt u)
        refine ⟨?_, ?_⟩
        · intro t
          have ht := hcnt t
          by_cases htu : t = u
          · subst htu
            simp [Config.step, hget, Observer.copy, htok, tokCount_append,
              (Heap.tokenIncr_tokens_self c.heap t).1]
            omega
          · have hne : t ≠ u := htu
            simp [Config.step, hget, Observer.copy, htok, tokCount_append,
              Heap.tokenIncr_tokens_ne c.heap hne, htu, hne.symm]
            omega
        · intro t
          by_cases htu : t = u
          · subst htu
            have hnf : (c.heap.tokens t).finalized = false := by
              rcases hfc : (c.heap.tokens t).finalized with _ | _
              · rfl
              · exact absurd ((hfin t).mp hfc) (by omega)
            simp [Config.step, hget, Observer.copy, htok,
              (Heap.tokenIncr_tokens_self c.heap t).1,
              (Heap.tokenIncr_tokens_self c.heap t).2.1, hnf]
          · have hne : t ≠ u := htu
            simpa [Config.step, hget, Observer.copy, htok,
              Heap.tokenIncr_tokens_ne c.heap hne] using hfin t
  | dropObs i =>
    cases hget : c.obs[i]? with
    | none => simpa [Config.step, hget] using ⟨hcnt, hfin⟩
    | some o =>
      cases htok : o.token with
      | none =>
        refine ⟨?_, ?_⟩
        · intro t
          have ht := hcnt t
          have hset := tokCount_set_release c.obs i o t hget
          simp [Config.step, hget, Observer.drop, htok]
          simp [htok] at hset
          omega
        · simpa [Config.step, hget, Observer.drop, htok] using hfin
      | some u =>
        have hupos : 1 ≤ (c.heap.tokens u).count :=
          le_trans (tokCount_pos c.obs i o u hget htok) (hcnt u)
        refine ⟨?_, ?_⟩
        · intro t
          have ht := hcnt t
          have hset := tokCount_set_release c.obs i o t hget
          by_cases htu : t = u
          · subst htu
            simp [htok] at hset
            simp [Config.step, hget, Observer.drop, htok,
              Heap.tokenRelease_count_self]
            omega
          · have hne : t ≠ u := htu
            simp [htok, htu] at hset
            simp [Config.step, hget, Observer.drop, htok,
              Heap.tokenRelease_tokens_ne c.heap hne]
            omega
        · intro t
          by_cases htu : t = u
          · subst htu
            by_cases hone : (c.heap.tokens t).count = 1
            · simp [Config.step, hget, Observer.drop, htok,
                Heap.tokenRelease_finalized_one c.heap t hone,
                Heap.tokenRelease_count_self, hone]
            · have hfalse : (c.heap.tokens t).finalized = false := by
                rcases hfc : (c.heap.tokens t).finalized with _ | _
                · rfl
                · exact absurd ((hfin t).mp hfc) (by omega)
              simp [Config.step, hget, Observer.drop, htok,
                Heap.tokenRelease_finalized_ne_one c.heap t hone,
                Heap.tokenRelease_count_self, hfalse]
              omega
          · have hne : t ≠ u := htu
            simpa [Config.step, hget, Observer.drop, htok,
              Heap.tokenRelease_tokens_ne c.heap hne] using hfin t
  | resetDp =>
    cases hdp : c.dp with
    | none => simpa [Config.step, hdp] using ⟨hcnt, hfin⟩
    | some dp =>
      refine ⟨?_, ?_⟩
      · intro t
        simpa [Config.step, hdp, decayReset_heap_tokens] using hcnt t
      · intro t
        simpa [Config.step, hdp, HeapTokensOk, decayReset_heap_tokens] using hfin t
  | dropDp =>
    cases hdp : c.dp with
    | none => simpa [Config.step, hdp] using ⟨hcnt, hfin⟩
    | some dp =>
      refine ⟨?_, ?_⟩
      · intro t
        simpa [Config.step, hdp, decayDrop_heap_tokens] using hcnt t
      · intro t
        simpa [Config.step, hdp, HeapTokensOk, decayDrop_heap_tokens] using hfin t

theorem configOk_run (c : Config) (tr : List DOp) (hok : ConfigOk c) :
    ConfigOk (c.run tr) := by
  induction tr generalizing c with
  | nil => simpa [Config.run] using hok
  | cons op tr ih => exact ih (c.step op) (configOk_step c op hok)

/-! Token count evolution along post-conversion operations. -/

theorem step_token_count_le_of_not_copy (c : Config) (op : DOp) (t : Nat)
    (hnc : ∀ i, op ≠ DOp.copyObs i) :
    ((c.step op).heap.tokens t).count ≤ (c.heap.tokens t).count := by
  cases op with
  | copyObs i => exact absurd rfl (hnc i)
  | dropObs i =>
    cases hget : c.obs[i]? with
    | none => simp [Config.step, hget]
    | some o =>
      cases htok : o.token with
      | none => simp [Config.step, hget, Observer.drop, htok]
      | some u =>
        by_cases htu : t = u
        · subst htu
          simp [Config.step, hget, Observer.drop, htok, Heap.tokenRelease_count_self]
        · simp [Config.step, hget, Observer.drop, htok,
            Heap.tokenRelease_tokens_ne c.heap (htu : t ≠ u)]
  | resetDp =>
    cases hdp : c.dp with
    | none => simp [Config.step, hdp]
    | some dp => simp [Config.step, hdp, decayReset_heap_tokens]
  | dropDp =>
    cases hdp : c.dp with
    | none => simp [Config.step, hdp]
    | some dp => simp [Config.step, hdp, decayDrop_heap_tokens]

theorem step_token_count_eq_of_dpOp (c : Config) (t : Nat) :
    ((c.step DOp.resetDp).heap.tokens t).count = (c.heap.tokens t).count ∧
    ((c.step DOp.dropDp).heap.tokens t).count = (c.heap.tokens t).count := by
  constructor
  · cases hdp : c.dp with
    | none => simp [Config.step, hdp]
    | some dp => simp [Config.step, hdp, decayReset_heap_tokens]
  · cases hdp : c.dp with
    | none => simp [Config.step, hdp]
    | some dp => simp [Config.step, hdp, decayDrop_heap_tokens]

theorem step_token_count_zero (c : Config) (op : DOp) (t : Nat)
    (hok : ConfigOk c) (hz : (c.heap.tokens t).count = 0) :
    ((c.step op).heap.tokens t).count = 0 := by
  cases op with
  | copyObs i =>
    cases hget : c.obs[i]? with
    | none => simpa [Config.step, hget] using hz
    | some o =>
      cases htok : o.token with
      | none => simpa [Config.step, hget, Observer.copy, htok] using hz
      | some u =>
        have hupos : 1 ≤ (c.heap.tokens u).count :=
          le_trans (tokCount_pos c.obs i o u hget htok) (hok.1 u)
        have hne : t ≠ u := by
          intro hh
          subst hh
          omega
        simpa [Config.step, hget, Observer.copy, htok,
          Heap.tokenIncr_tokens_ne c.heap hne] using hz
  | dropObs i =>
    have := step_token_count_le_of_not_copy c (DOp.dropObs i) t (by intro j h; cases h)
    omega
  | resetDp => rw [(step_token_count_eq_of_dpOp c t).1]; exact hz
  | dropDp => rw [(step_token_count_eq_of_dpOp c t).2]; exact hz

theorem run_token_count_zero (c : Config) (tr : List DOp) (t : Nat)
    (hok : ConfigOk c) (hz : (c.heap.tokens t).count = 0) :
    ((c.run tr).heap.tokens t).count = 0 := by
  induction tr generalizing c with
  | nil => simpa [Config.run] using hz
  | cons op tr ih =>
    exact ih (c.step op) (configOk_step c op hok) (step_token_count_zero c op t hok hz)

/-! With no live observers, the post-conversion operations never touch a
wake channel: copy and drop of observers are no-ops on the empty list,
and reset or destruction of the draining handle releases only its direct
storage claim. -/

theorem run_obsNil_wakes (c : Config) (tr : List DOp) (hobs : c.obs = []) :
    (c.run tr).heap.wakes = c.heap.wakes ∧ (c.run tr).obs = [] := by
  induction tr generalizing c with
  | nil => exact ⟨rfl, hobs⟩
  | cons op tr ih =>
    have hstep : (c.step op).heap.wakes = c.heap.wakes ∧ (c.step op).obs = [] := by
      cases op with
      | copyObs i => simp [Config.step, hobs]
      | dropObs i => simp [Config.step, hobs]
      | resetDp =>
        cases hdp : c.dp with
        | none => simp [Config.step, hdp, hobs]
        | some dp => simp [Config.step, hdp, hobs, decayReset_heap_wakes]
      | dropDp =>
        cases hdp : c.dp with
        | none => simp [Config.step, hdp, hobs]
        | some dp => simp [Config.step, hdp, hobs, decayDrop_heap_wakes]
    have := ih (c.step op) hstep.2
    exact ⟨by rw [Config.run, this.1, hstep.1], by rw [Config.run, this.2]⟩

/-! The two storage claims on one pointee: the draining handle direct
claim and the claim captured in the finalize callback.  CaptureInv says
token t is the unique token capturing data block d, and that d still has
its direct claim plus, while t is not finalized, the captured claim. -/

theorem Heap.dataRelease_datas_ne (h : Heap) {i j : Nat} (hne : j ≠ i) :
    (h.dataRelease i).datas j = h.datas j := by
  by_cases hc : (h.datas i).count = 1 <;>
    simp [Heap.dataRelease, hc, Heap.setData, hne]

theorem Heap.tokenIncr_dataId (h : Heap) (t v : Nat) :
    ((h.tokenIncr t).tokens v).dataId = (h.tokens v).dataId := by
  by_cases hv : v = t
  · subst hv
    exact (Heap.tokenIncr_tokens_self h v).2.2
  · rw [Heap.tokenIncr_tokens_ne h hv]

theorem Heap.tokenIncr_finalized (h : Heap) (t v : Nat) :
    ((h.tokenIncr t).tokens v).finalized = (h.tokens v).finalized := by
  by_cases hv : v = t
  · subst hv
    exact (Heap.tokenIncr_tokens_self h v).2.1
  · rw [Heap.tokenIncr_tokens_ne h hv]

def ObsOnly (tr : List DOp) : Prop :=
  ∀ op ∈ tr, (∃ i, op = DOp.copyObs i) ∨ (∃ i, op = DOp.dropObs i)

def CaptureInv (c : Config) (d t : Nat) : Prop :=
  (c.heap.tokens t).dataId = some d ∧
  (∀ u, (c.heap.tokens u).dataId = some d → u = t) ∧
  ((c.heap.tokens t).finalized = false ∧ c.heap.datas d = ⟨2, 0⟩ ∨
   (c.heap.tokens t).finalized = true ∧ c.heap.datas d = ⟨1, 0⟩)

theorem captureInv_step (c : Config) (op : DOp) (d t : Nat) (hok : ConfigOk c)
    (hop : (∃ i, op = DOp.copyObs i) ∨ (∃ i, op = DOp.dropObs i))
    (hinv : CaptureInv c d t) : CaptureInv (c.step op) d t := by
  obtain ⟨hcap, huniq, hst⟩ := hinv
  rcases hop with ⟨i, rfl⟩ | ⟨i, rfl⟩
  · cases hget : c.obs[i]? with
    | none => simpa [Config.step, hget] using ⟨hcap, huniq, hst⟩
    | some o =>
      cases htok : o.token with
      | none => simpa [Config.step, hget, Observer.copy, htok] using ⟨hcap, huniq, hst⟩
      | some u =>
        refine ⟨?_, ?_, ?_⟩
        · simpa [Config.step, hget, Observer.copy, htok, Heap.tokenIncr_dataId]
            using hcap
        · intro v hv
          apply huniq v
          simpa [Config.step, hget, Observer.copy, htok, Heap.tokenIncr_dataId]
            using hv
        · simpa [Config.step, hget, Observer.copy, htok, Heap.tokenIncr_finalized,
            Heap.tokenIncr_datas] using hst
  · cases hget : c.obs[i]? with
    | none => simpa [Config.step, hget] using ⟨hcap, huniq, hst⟩
    | some o =>
      cases htok : o.token with
      | none => simpa [Config.step, hget, Observer.drop, htok] using ⟨hcap, huniq, hst⟩
      | some u =>
        have hupos : 1 ≤ (c.heap.tokens u).count :=
          le_trans (tokCount_pos c.obs i o u hget htok) (hok.1 u)
        have hdataId : ∀ v, (((c.heap.tokenRelease u).tokens v).dataId) =
            (c.heap.tokens v).dataId := fun v => Heap.tokenRelease_dataId c.heap u v
        refine ⟨?_, ?_, ?_⟩
        · simpa [Config.step, hget, Observer.drop, htok, hdataId] using hcap
        · intro v hv
          apply huniq v
          simpa [Config.step, hget, Observer.drop, htok, hdataId] using hv
        · by_cases hut : u = t
          · subst hut
            have hnf : (c.heap.tokens u).finalized = false := by
              rcases hfc : (c.heap.tokens u).finalized with _ | _
              · rfl
              · exact absurd ((hok.2 u).mp hfc) (by omega)
            have hdd : c.heap.datas d = ⟨2, 0⟩ := by
              rcases hst with ⟨_, hdd⟩ | ⟨hf, _⟩
              · exact hdd
              · rw [hnf] at hf; cases hf
            by_cases hone : (c.heap.tokens u).count = 1
            · right
              constructor
              · simpa [Config.step, hget, Observer.drop, htok] using
                  Heap.tokenRelease_finalized_one c.heap u hone
              · have hdatas := Heap.tokenRelease_datas_one_some c.heap u d hone hcap
                simp [Config.step, hget, Observer.drop, htok, hdatas,
                  Heap.dataRelease, hdd, Heap.setData]
            · left
              constructor
              · simpa [Config.step, hget, Observer.drop, htok,
                  Heap.tokenRelease_finalized_ne_one c.heap u hone] using hnf
              · simpa [Config.step, hget, Observer.drop, htok,
                  Heap.tokenRelease_datas_ne_one c.heap u hone] using hdd
          · have htu : t ≠ u := fun hh => hut hh.symm
            have hfinal : (((c.heap.tokenRelease u).tokens t).finalized) =
                (c.heap.tokens t).finalized := by
              rw [Heap.tokenRelease_tokens_ne c.heap htu]
            have hdatas : ((c.heap.tokenRelease u).datas d) = c.heap.datas d := by
              by_cases hone : (c.heap.tokens u).count = 1
              · cases hdu : (c.heap.tokens u).dataId with
                | none => rw [Heap.tokenRelease_datas_one_none c.heap u hone hdu]
                | some e =>
                  have hde : d ≠ e := by
                    intro hh
                    subst hh
                    exact hut (huniq u hdu)
                  rw [Heap.tokenRelease_datas_one_some c.heap u e hone hdu]
                  exact Heap.dataRelease_datas_ne c.heap hde
              · rw [Heap.tokenRelease_datas_ne_one c.heap u hone]
            simpa [Config.step, hget, Observer.drop, htok, hfinal, hdatas] using hst

theorem captureInv_run (c : Config) (tr : List DOp) (d t : Nat) (hok : ConfigOk c)
    (htr : ObsOnly tr) (hinv : CaptureInv c d t) : CaptureInv (c.run tr) d t := by
  induction tr generalizing c with
  | nil => simpa [Config.run] using hinv
  | cons op tr ih =>
    have hop := htr op (by simp)
    have htr2 : ObsOnly tr := fun o ho => htr o (by simp [ho])
    exact ih (c.step op) (configOk_step c op hok) htr2
      (captureInv_step c op d t hok hop hinv)

/-! Claim theorems. -/

/-- C6: a default-constructed ExclusiveHandle is empty: its pointee is
null and it converts to boolean false; and get_shared on it does not
fail but returns a null-pointing observer. -/
theorem strong_ptr_default_empty_get_shared_null (h : Heap) :
    (mkStrongNull h).2.mData = none ∧
    (mkStrongNull h).2.toBool = false ∧
    ((mkStrongNull h).2.get_shared (mkStrongNull h).1).2.ptr = none :=
  ⟨rfl, rfl, rfl⟩

/-- C10: converting a non-empty ExclusiveHandle that holds the only
claim on its liveness token (zero outstanding observers) fires the
finalize callback during the conversion itself: the token is finalized,
the captured storage claim is released, the wake channel is broadcast,
and decayed() reads true immediately afterwards. -/
theorem decay_conversion_fires_finalize_without_observers
    (h : Heap) (d t w : Nat) (sp : StrongPtr)
    (_hdata : sp.mData = some d) (hsh : sp.mShared = some t)
    (_hwk : sp.mWake = some w)
    (htok : h.tokens t = ⟨1, false, some d, w⟩)
    (hdd : h.datas d = ⟨2, 0⟩) :
    ((toDecay h sp).2.1.decayed (toDecay h sp).1 = true) ∧
    (((toDecay h sp).1.tokens t).finalized = true) ∧
    ((toDecay h sp).1.wakeBroadcasts w = h.wakeBroadcasts w + 1) ∧
    ((toDecay h sp).1.datas d = ⟨1, 0⟩) := by
  refine ⟨?_, ?_, ?_, ?_⟩ <;>
    simp [toDecay, hsh, DecayPtr.decayed, Heap.tokenRelease, htok, hdd,
      Heap.wakeBroadcast, Heap.setWake, Heap.dataRelease, Heap.setToken,
      Heap.setData, Heap.wakeBroadcasts]

/-- Closed witness for the C10 theorem at the handle built by
strong_ptr(new T) over the empty heap. -/
theorem decay_conversion_fires_finalize_without_observers_witness :
    ((toDecay (mkStrong Heap.empty).1 (mkStrong Heap.empty).2).2.1.decayed
       (toDecay (mkStrong Heap.empty).1 (mkStrong Heap.empty).2).1 = true) ∧
    (((toDecay (mkStrong Heap.empty).1 (mkStrong Heap.empty).2).1.tokens 0).finalized
       = true) ∧
    ((toDecay (mkStrong Heap.empty).1 (mkStrong Heap.empty).2).1.wakeBroadcasts 0 =
       (mkStrong Heap.empty).1.wakeBroadcasts 0 + 1) ∧
    ((toDecay (mkStrong Heap.empty).1 (mkStrong Heap.empty).2).1.datas 0 = ⟨1, 0⟩) :=
  decay_conversion_fires_finalize_without_observers (mkStrong Heap.empty).1 0 0 0
    (mkStrong Heap.empty).2 (by decide) (by decide) (by decide) (by decide) (by decide)

/-! A concrete scenario used by the closed witnesses: strong_ptr(new T)
over the empty heap, one observer taken via get_shared, then conversion
to a decay_ptr. -/

def demoStart : Heap × StrongPtr := mkStrong Heap.empty

def demoShared : Heap × Observer := (demoStart.2).get_shared demoStart.1

def demoConv : Heap × DecayPtr × StrongPtr := toDecay demoShared.1 demoStart.2

def demoConfig : Config := ⟨demoConv.1, some demoConv.2.1, [demoShared.2]⟩

theorem demoTokens (t : Nat) :
    demoConfig.heap.tokens t =
      if t = 0 then ⟨1, false, some 0, 0⟩ else TokenCB.vacant := by
  by_cases ht : t = 0 <;>
    simp [demoConfig, demoConv, demoShared, demoStart, mkStrong, toDecay,
      StrongPtr.get_shared, Heap.allocData, Heap.allocWake, Heap.allocToken,
      Heap.dataIncr, Heap.tokenIncr, Heap.tokenRelease, Heap.setToken,
      Heap.setData, Heap.setWake, Heap.wakeBroadcast, Heap.dataRelease,
      Heap.empty, ht]

theorem demoConfigOk : ConfigOk demoConfig := by
  constructor
  · intro t
    rw [demoTokens t]
    by_cases ht : t = 0
    · subst ht
      simp [demoConfig, demoShared, demoStart, mkStrong, StrongPtr.get_shared,
        Heap.allocData, Heap.allocWake, Heap.allocToken, Heap.dataIncr,
        Heap.tokenIncr, Heap.setToken, Heap.setData, Heap.empty, tokCount]
    · simp [demoConfig, demoShared, demoStart, mkStrong, StrongPtr.get_shared,
        Heap.allocData, Heap.allocWake, Heap.allocToken, Heap.dataIncr,
        Heap.tokenIncr, Heap.setToken, Heap.setData, Heap.empty, tokCount,
        ht, TokenCB.vacant]
      omega
  · intro t
    rw [demoTokens t]
    by_cases ht : t = 0 <;> simp [ht, TokenCB.vacant]

theorem demoCaptureInv : CaptureInv demoConfig 0 0 := by
  refine ⟨by rw [demoTokens 0]; rfl, ?_, Or.inl ⟨by rw [demoTokens 0]; rfl, by decide⟩⟩
  intro u hu
  by_cases hu0 : u = 0
  · exact hu0
  · rw [demoTokens u] at hu
    simp [hu0, TokenCB.vacant] at hu

/-! Observer-only traces leave the draining handle itself untouched. -/

theorem step_obsOp_dp (c : Config) (op : DOp)
    (hop : (∃ i, op = DOp.copyObs i) ∨ (∃ i, op = DOp.dropObs i)) :
    (c.step op).dp = c.dp := by
  rcases hop with ⟨i, rfl⟩ | ⟨i, rfl⟩ <;>
    cases hget : c.obs[i]? <;> simp [Config.step, hget]

theorem run_obsOnly_dp (c : Config) (tr : List DOp) (htr : ObsOnly tr) :
    (c.run tr).dp = c.dp := by
  induction tr generalizing c with
  | nil => rfl
  | cons op tr ih =>
    have hop := htr op (by simp)
    have htr2 : ObsOnly tr := fun o ho => htr o (by simp [ho])
    rw [Config.run, ih (c.step op) htr2, step_obsOp_dp c op hop]

/-- C4: converting a non-empty ExclusiveHandle into a DrainingHandle
never destroys the pointee: the draining handle keeps the direct storage
claim on the same pointee, whose deleter has not run; and through any
further observer activity (copies and drops, in any order), as long as
the draining handle is not reset or destroyed, the pointee allocation
stays claimed and undestroyed, so it remains dereferenceable through the
handle. -/
theorem decay_conversion_preserves_pointee :
    (∀ (h : Heap) (d t w cnt : Nat) (sp : StrongPtr),
      sp.mData = some d → sp.mShared = some t → sp.mWake = some w →
      h.tokens t = ⟨cnt, false, some d, w⟩ → 1 ≤ cnt →
      h.datas d = ⟨2, 0⟩ →
      ((toDecay h sp).2.1.mData = some d) ∧
      (((toDecay h sp).1.datas d).destroyCount = 0) ∧
      (1 ≤ ((toDecay h sp).1.datas d).count)) ∧
    (∀ (c : Config) (dp : DecayPtr) (d t : Nat) (tr : List DOp),
      ConfigOk c → c.dp = some dp → dp.mData = some d →
      CaptureInv c d t → ObsOnly tr →
      ((c.run tr).dp = some dp) ∧
      (((c.run tr).heap.datas d).destroyCount = 0) ∧
      (1 ≤ ((c.run tr).heap.datas d).count)) := by
  constructor
  · intro h d t w cnt sp hdata hsh hwk htok hcnt hdd
    refine ⟨by simp [toDecay, hdata], ?_, ?_⟩ <;>
    · by_cases hone : cnt = 1 <;>
        simp [toDecay, hsh, Heap.tokenRelease, htok, hone, hdd,
          Heap.wakeBroadcast, Heap.setWake, Heap.dataRelease, Heap.setToken,
          Heap.setData]
  · intro c dp d t tr hok hdp hdata hinv htr
    have hrun := captureInv_run c tr d t hok htr hinv
    refine ⟨by rw [run_obsOnly_dp c tr htr, hdp], ?_, ?_⟩ <;>
      rcases hrun.2.2 with ⟨_, hdd⟩ | ⟨_, hdd⟩ <;> simp [hdd]

/-- Closed witness for the C4 theorem: conversion of the one-observer
scenario, then a run that drops the observer. -/
theorem decay_conversion_preserves_pointee_witness :
    (((toDecay (mkStrong Heap.empty).1 (mkStrong Heap.empty).2).2.1.mData = some 0) ∧
     (((toDecay (mkStrong Heap.empty).1 (mkStrong Heap.empty).2).1.datas 0).destroyCount
        = 0) ∧
     (1 ≤ ((toDecay (mkStrong Heap.empty).1 (mkStrong Heap.empty).2).1.datas 0).count)) ∧
    (((demoConfig.run [DOp.dropObs 0]).dp = some demoConv.2.1) ∧
     (((demoConfig.run [DOp.dropObs 0]).heap.datas 0).destroyCount = 0) ∧
     (1 ≤ ((demoConfig.run [DOp.dropObs 0]).heap.datas 0).count)) := by
  constructor
  · exact decay_conversion_preserves_pointee.1 (mkStrong Heap.empty).1 0 0 0 1
      (mkStrong Heap.empty).2 (by decide) (by decide) (by decide) (by decide)
      (by decide) (by decide)
  · exact decay_conversion_preserves_pointee.2 demoConfig demoConv.2.1 0 0
      [DOp.dropObs 0] demoConfigOk rfl (by decide) demoCaptureInv
      (by intro op hop; rcases List.mem_singleton.mp hop with rfl; exact Or.inr ⟨0, rfl⟩)

/-- C1: the pointee deleter runs exactly once, and only after both
storage claims are gone: the direct claim of the handle (released by
strong_ptr destruction or decay_ptr::reset) and the claim captured in
the shared_deleter (released when the last token claim drops).  First
conjunct: constructing strong_ptr(new T) and destroying it with no
observer taken runs the deleter exactly once.  Remaining conjuncts: with
one observer still holding the token after conversion, releasing the
handle claim and the observer in either order leaves the pointee alive
after the first release and destroyed exactly once after the second. -/
theorem pointee_destroyed_exactly_once_after_both_claims :
    ((StrongPtr.drop (mkStrong Heap.empty).2 (mkStrong Heap.empty).1).datas 0
       = ⟨0, 1⟩) ∧
    (∀ (h : Heap) (d t w : Nat) (dp : DecayPtr) (o : Observer),
      dp.mData = some d → o.token = some t →
      h.tokens t = ⟨1, false, some d, w⟩ →
      h.datas d = ⟨2, 0⟩ →
      ((dp.reset h).1.datas d = ⟨1, 0⟩) ∧
      ((Observer.drop o (dp.reset h).1).datas d = ⟨0, 1⟩) ∧
      ((Observer.drop o h).datas d = ⟨1, 0⟩) ∧
      ((dp.reset (Observer.drop o h)).1.datas d = ⟨0, 1⟩)) := by
  constructor
  · decide
  · intro h d t w dp o hdp htok hcbt hcbd
    have h1 : (dp.reset h).1.datas d = ⟨1, 0⟩ ∧ (dp.reset h).1.tokens t =
        h.tokens t := by
      constructor <;>
        simp [DecayPtr.reset, hdp, Heap.dataRelease, hcbd, Heap.setData]
    refine ⟨h1.1, ?_, ?_, ?_⟩
    · simp [Observer.drop, htok, Heap.tokenRelease, h1.2, hcbt, h1.1,
        Heap.dataRelease, Heap.setToken, Heap.setData, Heap.wakeBroadcast,
        Heap.setWake]
    · simp [Observer.drop, htok, Heap.tokenRelease, hcbt, hcbd,
        Heap.dataRelease, Heap.setToken, Heap.setData, Heap.wakeBroadcast,
        Heap.setWake]
    · simp [Observer.drop, htok, Heap.tokenRelease, hcbt, hcbd,
        DecayPtr.reset, hdp, Heap.dataRelease, Heap.setToken, Heap.setData,
        Heap.wakeBroadcast, Heap.setWake]

/-- Closed witness for the C1 theorem at the one-observer scenario after
conversion. -/
theorem pointee_destroyed_exactly_once_after_both_claims_witness :
    ((demoConv.2.1.reset demoConv.1).1.datas 0 = ⟨1, 0⟩) ∧
    ((Observer.drop demoShared.2 (demoConv.2.1.reset demoConv.1).1).datas 0
       = ⟨0, 1⟩) ∧
    ((Observer.drop demoShared.2 demoConv.1).datas 0 = ⟨1, 0⟩) ∧
    ((demoConv.2.1.reset (Observer.drop demoShared.2 demoConv.1)).1.datas 0
       = ⟨0, 1⟩) :=
  pointee_destroyed_exactly_once_after_both_claims.2 demoConv.1 0 0 0
    demoConv.2.1 demoShared.2 (by decide) (by decide) (by decide) (by decide)

/-- C3: for a draining handle observing token t, decayed() is true
exactly when the token claim count has reached zero and the finalize
callback has fired; it is false while at least one observer holding the
token is outstanding; it becomes true in the very step that drops the
last outstanding observer; and once true it stays true under every
further operation of the lineage. -/
theorem decayed_iff_all_observers_released :
    (∀ (h : Heap) (dp : DecayPtr) (t : Nat),
      dp.mDecaying = some t → HeapTokensOk h →
      (dp.decayed h = true ↔
        ((h.tokens t).count = 0 ∧ (h.tokens t).finalized = true))) ∧
    (∀ (c : Config) (dp : DecayPtr) (t i : Nat) (o : Observer),
      ConfigOk c → dp.mDecaying = some t →
      c.obs[i]? = some o → o.token = some t →
      dp.decayed c.heap = false) ∧
    (∀ (c : Config) (dp : DecayPtr) (t i : Nat) (o : Observer),
      ConfigOk c → dp.mDecaying = some t →
      c.obs[i]? = some o → o.token = some t →
      (c.heap.tokens t).count = 1 →
      dp.decayed (c.step (DOp.dropObs i)).heap = true) ∧
    (∀ (c : Config) (dp : DecayPtr) (t : Nat) (tr : List DOp),
      ConfigOk c → dp.mDecaying = some t →
      dp.decayed c.heap = true →
      dp.decayed (c.run tr).heap = true) := by
  refine ⟨?_, ?_, ?_, ?_⟩
  · intro h dp t hmd hfin
    simp only [DecayPtr.decayed, hmd, beq_iff_eq]
    constructor
    · intro hz
      exact ⟨hz, (hfin t).mpr hz⟩
    · exact fun hh => hh.1
  · intro c dp t i o hok hmd hget htok
    have hpos : 1 ≤ (c.heap.tokens t).count :=
      le_trans (tokCount_pos c.obs i o t hget htok) (hok.1 t)
    simp only [DecayPtr.decayed, hmd]
    simp
    omega
  · intro c dp t i o _hok hmd hget htok hone
    simp [Config.step, hget, Observer.drop, htok, DecayPtr.decayed, hmd,
      Heap.tokenRelease_count_self, hone]
  · intro c dp t tr hok hmd hdec
    have hz : (c.heap.tokens t).count = 0 := by
      simpa [DecayPtr.decayed, hmd] using hdec
    simp only [DecayPtr.decayed, hmd, beq_iff_eq]
    exact run_token_count_zero c tr t hok hz

/-- Closed witness for the C3 theorem at the one-observer scenario. -/
theorem decayed_iff_all_observers_released_witness :
    ((demoConv.2.1.decayed demoConfig.heap = true ↔
       ((demoConfig.heap.tokens 0).count = 0 ∧
        (demoConfig.heap.tokens 0).finalized = true))) ∧
    (demoConv.2.1.decayed demoConfig.heap = false) ∧
    (demoConv.2.1.decayed (demoConfig.step (DOp.dropObs 0)).heap = true) ∧
    (demoConv.2.1.decayed
       ((demoConfig.step (DOp.dropObs 0)).run [DOp.resetDp, DOp.dropDp]).heap
       = true) := by
  refine ⟨?_, ?_, ?_, ?_⟩
  · exact decayed_iff_all_observers_released.1 demoConfig.heap demoConv.2.1 0
      (by decide) demoConfigOk.2
  · exact decayed_iff_all_observers_released.2.1 demoConfig demoConv.2.1 0 0
      demoShared.2 demoConfigOk (by decide) (by decide) (by decide)
  · exact decayed_iff_all_observers_released.2.2.1 demoConfig demoConv.2.1 0 0
      demoShared.2 demoConfigOk (by decide) (by decide) (by decide) (by decide)
  · exact decayed_iff_all_observers_released.2.2.2
      (demoConfig.step (DOp.dropObs 0)) demoConv.2.1 0 [DOp.resetDp, DOp.dropDp]
      (configOk_step demoConfig (DOp.dropObs 0) demoConfigOk) (by decide)
      (by decide)

/-- C7: after the conversion releases the handle claim, the token claim
count of any token is non-increasing under every post-conversion
operation other than copying a live observer; the draining handle
operations (reset and destruction) leave every token count unchanged and
so create no new claims; and once a count has reached zero, no operation
whatsoever (observer copy included) can raise it again. -/
theorem token_count_monotone_after_conversion :
    (∀ (c : Config) (op : DOp) (t : Nat),
      (∀ i, op ≠ DOp.copyObs i) →
      ((c.step op).heap.tokens t).count ≤ (c.heap.tokens t).count) ∧
    (∀ (c : Config) (t : Nat),
      ((c.step DOp.resetDp).heap.tokens t).count = (c.heap.tokens t).count ∧
      ((c.step DOp.dropDp).heap.tokens t).count = (c.heap.tokens t).count) ∧
    (∀ (c : Config) (op : DOp) (t : Nat),
      ConfigOk c → (c.heap.tokens t).count = 0 →
      ((c.step op).heap.tokens t).count = 0) := by
  exact ⟨step_token_count_le_of_not_copy,
    fun c t => step_token_count_eq_of_dpOp c t,
    fun c op t hok hz => step_token_count_zero c op t hok hz⟩

/-- Closed witness for the C7 theorem at the one-observer scenario. -/
theorem token_count_monotone_after_conversion_witness :
    (((demoConfig.step (DOp.dropObs 0)).heap.tokens 0).count ≤
       (demoConfig.heap.tokens 0).count) ∧
    (((demoConfig.step DOp.resetDp).heap.tokens 0).count =
       (demoConfig.heap.tokens 0).count) ∧
    ((((demoConfig.step (DOp.dropObs 0)).step (DOp.copyObs 0)).heap.tokens 0).count
       = 0) := by
  refine ⟨?_, ?_, ?_⟩
  · exact token_count_monotone_after_conversion.1 demoConfig (DOp.dropObs 0) 0
      (by intro i h; simp at h)
  · exact (token_count_monotone_after_conversion.2.1 demoConfig 0).1
  · exact token_count_monotone_after_conversion.2.2
      (demoConfig.step (DOp.dropObs 0)) (DOp.copyObs 0) 0
      (configOk_step demoConfig (DOp.dropObs 0) demoConfigOk) (by decide)

/-! The drained scenario for the plain wait(): strong_ptr(new T) with no
observers, converted to a decay_ptr, so decayed() is already true and
the single notify_all of this lineage has already been delivered. -/

def soloConv : Heap × DecayPtr × StrongPtr :=
  toDecay (mkStrong Heap.empty).1 (mkStrong Heap.empty).2

def soloConfig : Config := ⟨soloConv.1, some soloConv.2.1, []⟩

/-- C2 (refuted by the code): in the drained scenario decayed() is
already true, yet the no-predicate wait() consults no state before
parking on the condition variable, and no continuation of the system
ever broadcasts on this wake channel again (the one-shot finalize has
already fired and no observers exist), so a caller entering wait() now
stays blocked forever instead of returning immediately. -/
theorem plain_wait_after_drained_blocks_forever :
    (soloConv.2.1.decayed soloConv.1 = true) ∧
    (∀ tr : List DOp,
      soloConv.2.1.waitOutcome (soloConfig.broadcastsAfter 0 tr) =
        WaitOutcome.blocked) := by
  constructor
  · decide
  · intro tr
    have hw := run_obsNil_wakes soloConfig tr rfl
    have hz : soloConfig.broadcastsAfter 0 tr = 0 := by
      unfold Config.broadcastsAfter Heap.wakeBroadcasts
      rw [hw.1]
      omega
    rw [hz]
    decide

/-- C8: the timed wait family returns a status value distinguishing the
condition being satisfied from the deadline elapsing; deadline expiry is
reported as the normal status value (cv_status timeout, or false from
the predicate overloads), never as a failure of the call. -/
theorem timed_wait_reports_timeout_as_status (dp : DecayPtr) (b : Bool)
    (hwk : dp.mWake.isSome = true) :
    ((dp.wait_for b).isSome = true) ∧
    (dp.wait_for b = some CvStatus.cvTimeout ↔ b = false) ∧
    ((dp.wait_until b).isSome = true) ∧
    (dp.wait_until b = some CvStatus.cvTimeout ↔ b = false) ∧
    ((dp.wait_for_pred b).isSome = true) ∧
    (dp.wait_for_pred b = some false ↔ b = false) ∧
    ((dp.wait_until_pred b).isSome = true) ∧
    (dp.wait_until_pred b = some false ↔ b = false) := by
  cases hmw : dp.mWake with
  | none => rw [hmw] at hwk; cases hwk
  | some w =>
    cases b <;>
      simp [DecayPtr.wait_for, DecayPtr.wait_until, DecayPtr.wait_for_pred,
        DecayPtr.wait_until_pred, hmw]

/-- Closed witness for the C8 theorem on the drained handle with the
deadline elapsing. -/
theorem timed_wait_reports_timeout_as_status_witness :
    ((soloConv.2.1.wait_for false).isSome = true) ∧
    (soloConv.2.1.wait_for false = some CvStatus.cvTimeout ↔ false = false) ∧
    ((soloConv.2.1.wait_until false).isSome = true) ∧
    (soloConv.2.1.wait_until false = some CvStatus.cvTimeout ↔ false = false) ∧
    ((soloConv.2.1.wait_for_pred false).isSome = true) ∧
    (soloConv.2.1.wait_for_pred false = some false ↔ false = false) ∧
    ((soloConv.2.1.wait_until_pred false).isSome = true) ∧
    (soloConv.2.1.wait_until_pred false = some false ↔ false = false) :=
  timed_wait_reports_timeout_as_status soloConv.2.1 false (by decide)

/-- C9: the token-less convention is asymmetric.  On a
default-constructed, moved-from, or reset decay_ptr, decayed() reads
vacuously true (the empty weak_ptr is expired); but every member of the
wait family hits the assert(m_wake) precondition instead of returning
immediately, since those handles carry no wake channel. -/
theorem tokenless_decay_ptr_convention :
    (∀ h : Heap, DecayPtr.empty.decayed h = true) ∧
    (∀ (h : Heap) (dp : DecayPtr), (dp.moveOut.2).decayed h = true) ∧
    (∀ (h h2 : Heap) (dp : DecayPtr), ((dp.reset h).2).decayed h2 = true) ∧
    (∀ n : Nat, DecayPtr.empty.waitOutcome n = WaitOutcome.assertFail) ∧
    (∀ b : Bool, DecayPtr.empty.wait_for b = none) ∧
    (∀ b : Bool, DecayPtr.empty.wait_until b = none) ∧
    (∀ b : Bool, DecayPtr.empty.wait_for_pred b = none) ∧
    (∀ b : Bool, DecayPtr.empty.wait_until_pred b = none) ∧
    (DecayPtr.empty.wait_pred = none) ∧
    (∀ (n : Nat) (dp : DecayPtr),
      (dp.moveOut.2).waitOutcome n = WaitOutcome.assertFail) ∧
    (∀ (b : Bool) (dp : DecayPtr), (dp.moveOut.2).wait_for b = none) ∧
    (∀ (h : Heap) (n : Nat) (dp : DecayPtr),
      ((dp.reset h).2).waitOutcome n = WaitOutcome.assertFail) ∧
    (∀ (h : Heap) (b : Bool) (dp : DecayPtr),
      ((dp.reset h).2).wait_for b = none) :=
  ⟨fun _ => rfl, fun _ _ => rfl, fun _ _ _ => rfl, fun _ => rfl, fun _ => rfl,
   fun _ => rfl, fun _ => rfl, fun _ => rfl, rfl, fun _ _ => rfl,
   fun _ _ => rfl, fun _ _ _ => rfl, fun _ _ _ => rfl⟩

/-- C5 counterexample: on the handle built by strong_ptr(new T), the
no-argument reset() leaves m_shared as a null shared_ptr and allocates
no token control block at all, so it does not install a brand-new
LivenessToken (while it does install a brand-new WakeChannel). -/
theorem plain_reset_installs_no_token :
    ((StrongPtr.reset (mkStrong Heap.empty).2 (mkStrong Heap.empty).1).2.mShared
       = none) ∧
    (¬ ∃ t : Nat,
      (StrongPtr.reset (mkStrong Heap.empty).2 (mkStrong Heap.empty).1).2.mShared
        = some t) ∧
    ((StrongPtr.reset (mkStrong Heap.empty).2 (mkStrong Heap.empty).1).1.tokenCt
       = (mkStrong Heap.empty).1.tokenCt) := by
  refine ⟨rfl, ?_, rfl⟩
  rintro ⟨t, ht⟩
  cases ht

/-- C5 as amended: reset(ptr) installs a brand-new pointee, LivenessToken
and WakeChannel (fresh control blocks, distinct from the old ones), while
the no-argument reset() installs a brand-new WakeChannel but leaves the
handle with a null pointee and a null LivenessToken.  In both cases a
SharedObserver taken before the reset keeps referencing the old token
(still capturing the old pointee) unchanged, the old pointee is not
destroyed by the reset, and it is destroyed exactly once when that
pre-reset observer is also released. -/
theorem reset_fresh_state_and_old_lineage_preserved :
    (∀ (h : Heap) (d t w : Nat) (sp : StrongPtr) (o : Observer),
      sp.mData = some d → sp.mShared = some t → sp.mWake = some w →
      o.token = some t →
      h.tokens t = ⟨2, false, some d, w⟩ →
      h.datas d = ⟨2, 0⟩ →
      d < h.dataCt → t < h.tokenCt → w < h.wakeCt →
      ((sp.resetPtr h).2 = ⟨some h.dataCt, some h.wakeCt, some h.tokenCt⟩) ∧
      (h.dataCt ≠ d ∧ h.tokenCt ≠ t ∧ h.wakeCt ≠ w) ∧
      ((sp.resetPtr h).1.tokens h.tokenCt = ⟨1, false, some h.dataCt, h.wakeCt⟩) ∧
      ((sp.resetPtr h).1.datas h.dataCt = ⟨2, 0⟩) ∧
      ((sp.resetPtr h).1.tokens t = ⟨1, false, some d, w⟩) ∧
      ((sp.resetPtr h).1.datas d = ⟨1, 0⟩) ∧
      ((Observer.drop o (sp.resetPtr h).1).datas d = ⟨0, 1⟩) ∧
      ((Observer.drop o (sp.resetPtr h).1).datas h.dataCt = ⟨2, 0⟩)) ∧
    (∀ (h : Heap) (d t w : Nat) (sp : StrongPtr) (o : Observer),
      sp.mData = some d → sp.mShared = some t → sp.mWake = some w →
      o.token = some t →
      h.tokens t = ⟨2, false, some d, w⟩ →
      h.datas d = ⟨2, 0⟩ →
      w < h.wakeCt →
      ((sp.reset h).2 = ⟨none, some h.wakeCt, none⟩) ∧
      (h.wakeCt ≠ w) ∧
      ((sp.reset h).1.tokenCt = h.tokenCt) ∧
      ((sp.reset h).1.tokens t = ⟨1, false, some d, w⟩) ∧
      ((sp.reset h).1.datas d = ⟨1, 0⟩) ∧
      ((Observer.drop o (sp.reset h).1).datas d = ⟨0, 1⟩)) := by
  constructor
  · intro h d t w sp o hdata hsh hwk hotok htok hdd hdlt htlt hwlt
    have hdne : d ≠ h.dataCt := Nat.ne_of_lt hdlt
    have htne : t ≠ h.tokenCt := Nat.ne_of_lt htlt
    have hwne : w ≠ h.wakeCt := Nat.ne_of_lt hwlt
    refine ⟨?_, ⟨hdne.symm, htne.symm, hwne.symm⟩, ?_, ?_, ?_, ?_, ?_, ?_⟩ <;>
      simp [StrongPtr.resetPtr, Observer.drop, hotok, hdata, hsh, hwk,
        Heap.allocData, Heap.allocWake, Heap.allocToken, Heap.dataIncr,
        Heap.dataRelease, Heap.tokenRelease, Heap.setData, Heap.setToken,
        Heap.setWake, Heap.wakeBroadcast, htok, hdd, hdne, hdne.symm, htne,
        htne.symm, hwne, hwne.symm]
  · intro h d t w sp o hdata hsh hwk hotok htok hdd hwlt
    have hwne : w ≠ h.wakeCt := Nat.ne_of_lt hwlt
    refine ⟨?_, hwne.symm, ?_, ?_, ?_, ?_⟩ <;>
      simp [StrongPtr.reset, Observer.drop, hotok, hdata, hsh, hwk,
        Heap.allocWake, Heap.dataRelease, Heap.tokenRelease, Heap.setData,
        Heap.setToken, Heap.setWake, Heap.wakeBroadcast, htok, hdd, hwne,
        hwne.symm]

/-- Closed witness for the amended C5 theorem at the one-observer handle
built by strong_ptr(new T) followed by get_shared. -/
theorem reset_fresh_state_and_old_lineage_preserved_witness :
    (((demoStart.2.resetPtr demoShared.1).2 = ⟨some 1, some 1, some 1⟩) ∧
     ((1 : Nat) ≠ 0 ∧ (1 : Nat) ≠ 0 ∧ (1 : Nat) ≠ 0) ∧
     ((demoStart.2.resetPtr demoShared.1).1.tokens 1 = ⟨1, false, some 1, 1⟩) ∧
     ((demoStart.2.resetPtr demoShared.1).1.datas 1 = ⟨2, 0⟩) ∧
     ((demoStart.2.resetPtr demoShared.1).1.tokens 0 = ⟨1, false, some 0, 0⟩) ∧
     ((demoStart.2.resetPtr demoShared.1).1.datas 0 = ⟨1, 0⟩) ∧
     ((Observer.drop demoShared.2 (demoStart.2.resetPtr demoShared.1).1).datas 0
        = ⟨0, 1⟩) ∧
     ((Observer.drop demoShared.2 (demoStart.2.resetPtr demoShared.1).1).datas 1
        = ⟨2, 0⟩)) ∧
    (((demoStart.2.reset demoShared.1).2 = ⟨none, some 1, none⟩) ∧
     ((1 : Nat) ≠ 0) ∧
     ((demoStart.2.reset demoShared.1).1.tokenCt = 1) ∧
     ((demoStart.2.reset demoShared.1).1.tokens 0 = ⟨1, false, some 0, 0⟩) ∧
     ((demoStart.2.reset demoShared.1).1.datas 0 = ⟨1, 0⟩) ∧
     ((Observer.drop demoShared.2 (demoStart.2.reset demoShared.1).1).datas 0
        = ⟨0, 1⟩)) := by
  constructor
  · exact reset_fresh_state_and_old_lineage_preserved.1 demoShared.1 0 0 0
      demoStart.2 demoShared.2 (by decide) (by decide) (by decide) (by decide)
      (by decide) (by decide) (by decide) (by decide) (by decide)
  · exact reset_fresh_state_and_old_lineage_preserved.2 demoShared.1 0 0 0
      demoStart.2 demoShared.2 (by decide) (by decide) (by decide) (by decide)
      (by decide) (by decide) (by decide)
